import Mathlib

/-!
Verification of the page-level lock-free append log of the disk-ringbuffer
repository.  The definitions below are a shallow embedding of the C sources,
primarily `src/unnamed/part_000` (the revision that includes `page.h`, uses
bitwise-not in `_get_write_idx_spin`, returns immediately on a scan error in
`raw_qpage_pop`, and stamps the full sentinel with the `start <= QUEUE_SIZE - 1`
guard).  `size_t` values are modelled as `Nat` with explicit reduction modulo
`2 ^ 64`; the byte arena is modelled as a total function `Nat → Nat`; the
sequential (single-thread) semantics of each operation is embedded, with the
unbounded writer-wait spin of the pop path modelled by an `Option` result
(`none` = the spin never exits).
-/

/-- `#define QUEUE_SIZE 4096 * 16000` (page.h, used by src/unnamed/part_000).
All operations below take the arena size as an explicit parameter `qs` so the
spec's concrete `ARENA_SIZE = 16` scenario can be stated; the source fixes
`qs = QUEUE_SIZE`. -/
def QUEUE_SIZE : Nat := 4096 * 16000

/-- Wraparound modulus of a 64-bit `size_t`. -/
def SIZE_T_MOD : Nat := 2 ^ 64

/-- `const size_t QUEUE_MAGIC_NUM = (size_t)0b1 << ((sizeof(size_t) * 8) - 8)`:
one unit of the writer-count field (high 8 bits of the state word). -/
def QUEUE_MAGIC_NUM : Nat := 2 ^ 56

/-- `const size_t QUEUE_MAGIC_MASK = QUEUE_MAGIC_NUM - 1`: low 56 bits, the
write-index field. -/
def QUEUE_MAGIC_MASK : Nat := QUEUE_MAGIC_NUM - 1

/-- `2 ^ 64 - 2 ^ 56` as a literal: the wrapping additive inverse of
`QUEUE_MAGIC_NUM` modulo `2 ^ 64`.  Adding it modulo `SIZE_T_MOD` is what the
C `atomic_fetch_sub(&state, QUEUE_MAGIC_NUM)` does; it also equals
`~QUEUE_MAGIC_MASK` on a 64-bit `size_t`. -/
def MAGIC_NUM_NEG : Nat := 18374686479671623680

/-- `#define VALUE_TERM_BYTE 0xFF` -/
def VALUE_TERM_BYTE : Nat := 0xFF

/-- `#define WRITE_PAGE_FULL 0` (page.h) -/
def WRITE_PAGE_FULL : Nat := 0

/-- `#define READ_ERROR -1` (page.h) -/
def READ_ERROR : Int := -1

/-- `#define READ_SUCCESS 0` -/
def READ_SUCCESS : Int := 0

/-- `#define READ_FINISHED 1` -/
def READ_FINISHED : Int := 1

/-- `#define READ_EMPTY 2` -/
def READ_EMPTY : Int := 2

/-- The `CSlice` struct returned by `raw_qpage_pop`.  The C `ptr` field either
is NULL (`none`) or aliases `&p->buf[off]` (`some off`). -/
structure CSlice where
  len : Nat
  ptr : Option Nat
  read_status : Int
deriving DecidableEq, Repr

/-- The `RawQPage` struct of page.h: three atomic `size_t` header words and the
byte arena.  `buf j` is the byte at arena offset `j` (a fresh page is all
zeros, from `ftruncate`). -/
structure RawQPage where
  is_ready : Nat
  write_idx_lock : Nat
  last_safe_write_idx : Nat
  buf : Nat → Nat

/-- A store of one byte: `p->buf[i] = v`. -/
def writeByte (f : Nat → Nat) (i v : Nat) : Nat → Nat :=
  fun j => if j = i then v else f j

/-- `memcpy(&p->buf[start], buf, len)` where `m` is the `len` source bytes. -/
def writeBytes (f : Nat → Nat) (start : Nat) (m : List Nat) : Nat → Nat :=
  match m with
  | [] => f
  | b :: rest => writeBytes (writeByte f start b) (start + 1) rest

/-- C logical negation `!x` on a `size_t` value. -/
def cLogicalNot (x : Nat) : Nat := if x = 0 then 1 else 0

/-- Loop-exit test of the spin in `_get_write_idx_spin` (src/unnamed/part_000,
line 142): `(end & ~QUEUE_MAGIC_MASK) == 0`.  `~QUEUE_MAGIC_MASK` on a 64-bit
`size_t` is `2 ^ 64 - 1 - QUEUE_MAGIC_MASK = 2 ^ 64 - 2 ^ 56 = MAGIC_NUM_NEG`. -/
def spinExit (st : Nat) : Bool :=
  st &&& MAGIC_NUM_NEG == 0

/-- Loop-exit test of the spin in `raw_qpage_pop_fast_read`
(src/unnamed/part_000 line 110, src/src/page.c line 165) and of
`_get_write_idx_spin` in the src/src/page.c copy (line 199):
`(end & !QUEUE_MAGIC_MASK) == 0`, with C logical not. -/
def spinExitFastRead (st : Nat) : Bool :=
  st &&& cLogicalNot QUEUE_MAGIC_MASK == 0

/-- The writer-count field of a state word: its high 8 bits. -/
def writerCount (st : Nat) : Nat := (st >>> 56) % 2 ^ 8

/-- `int raw_qpage_push(RawQPage *p, const unsigned char *buf, size_t len)`
from src/unnamed/part_000 lines 67-98 (default, non-CONSTANT_TIME_READ
variant), embedded sequentially: the atomic fetch-add reserves
`[start, start + len]`, the full check compares against `qs - 1`, the full
path stamps `0xFD` when `start <= qs - 1` and abandons the reservation, the
happy path copies the body, writes the `0xFF` terminator and releases the
writer count.  As in C, the message pointer and the length are separate
arguments: `m` is the byte sequence at the `buf` pointer and `len` the
`size_t` length; `memcpy(&p->buf[start], buf, len)` writes the bytes
available at the pointer (well-formed callers pass `len = m.length`).  The
full path never reads `buf`, again as in C. -/
def raw_qpage_push (qs : Nat) (p : RawQPage) (m : List Nat) (len : Nat) :
    RawQPage × Nat :=
  let st1 := (p.write_idx_lock + (QUEUE_MAGIC_NUM + len + 1)) % SIZE_T_MOD
  let start := p.write_idx_lock &&& QUEUE_MAGIC_MASK
  let st2 := (MAGIC_NUM_NEG + st1) % SIZE_T_MOD
  if qs - 1 ≤ (start + len) % SIZE_T_MOD then
    let buf1 := if start ≤ qs - 1 then writeByte p.buf start 0xFD else p.buf
    ({ p with write_idx_lock := st2, buf := buf1 }, WRITE_PAGE_FULL)
  else
    let buf1 :=
      writeByte (writeBytes p.buf start (m.take len)) (start + len) VALUE_TERM_BYTE
    ({ p with write_idx_lock := st2, buf := buf1 }, len + 1)

/-- The terminator scan of `raw_qpage_pop`:
`for (i = start_byte; i < end; i++) { if (p->buf[i] == VALUE_TERM_BYTE) break; }`
unrolled on explicit fuel (the loop runs at most `e - i` iterations). -/
def scanTermAux (buf : Nat → Nat) : Nat → Nat → Nat → Nat
  | 0, i, _ => i
  | fuel + 1, i, e =>
    if i < e then
      if buf i = VALUE_TERM_BYTE then i else scanTermAux buf fuel (i + 1) e
    else i

/-- Value of `i` after the terminator scan loop of `raw_qpage_pop`. -/
def scanTerm (buf : Nat → Nat) (i e : Nat) : Nat :=
  scanTermAux buf (e - i) i e

/-- `size_t _get_write_idx_spin(RawQPage *p, size_t start_byte)` from
src/unnamed/part_000 lines 131-156.  Returns the updated page together with
the clamped `end`; `none` models the spin never exiting (sequentially, the
state word does not change while this thread spins). -/
def _get_write_idx_spin (qs : Nat) (p : RawQPage) (start_byte : Nat) :
    Option (RawQPage × Nat) :=
  let e0 := p.last_safe_write_idx
  if e0 ≤ start_byte then
    if spinExit p.write_idx_lock then
      let e := p.write_idx_lock
      some ({ p with last_safe_write_idx := e }, if qs < e then qs else e)
    else
      none
  else
    some (p, if qs < e0 then qs else e0)

/-- `CSlice raw_qpage_pop(RawQPage *p, size_t start_byte)` from
src/unnamed/part_000 lines 158-203 (default variant; this revision returns
immediately in the ERROR case). -/
def raw_qpage_pop (qs : Nat) (p : RawQPage) (start_byte : Nat) :
    Option (RawQPage × CSlice) :=
  match _get_write_idx_spin qs p start_byte with
  | none => none
  | some (p1, e) =>
    if e ≤ start_byte then
      some (p1, ⟨0, none, READ_EMPTY⟩)
    else if p1.buf start_byte = 0xFD then
      some (p1, ⟨0, none, READ_FINISHED⟩)
    else
      let i := scanTerm p1.buf start_byte e
      if p1.buf i ≠ VALUE_TERM_BYTE then
        some (p1, ⟨0, none, READ_ERROR⟩)
      else
        some (p1, ⟨i - start_byte, some start_byte, READ_SUCCESS⟩)

/-- A freshly mapped page: `ftruncate` zero-fills the file, so the header words
and arena are all zero. -/
def freshPage : RawQPage := ⟨0, 0, 0, fun _ => 0⟩

/-- The page after a pop (the page is unchanged when the spin never exits;
under the writer-count-zero conditions used in the theorems the pop always
returns). -/
def popStep (qs : Nat) (p : RawQPage) (c : Nat) : RawQPage :=
  ((raw_qpage_pop qs p c).map Prod.fst).getD p

/-- The slice returned by a pop. -/
def popSlice (qs : Nat) (p : RawQPage) (c : Nat) : Option CSlice :=
  (raw_qpage_pop qs p c).map Prod.snd

/-- One page-API call, for stating properties of operation sequences. -/
inductive PageOp where
  | push : List Nat → PageOp
  | pop : Nat → PageOp

/-- Apply one operation to a page (push drops the return code, pop drops the
slice).  A `push m` op is the well-formed call `raw_qpage_push p m m.length`. -/
def applyOp (qs : Nat) (p : RawQPage) : PageOp → RawQPage
  | PageOp.push m => (raw_qpage_push qs p m m.length).1
  | PageOp.pop c => popStep qs p c

/-- Run a sequence of page operations. -/
def runOps (qs : Nat) (p : RawQPage) : List PageOp → RawQPage
  | [] => p
  | op :: rest => runOps qs (applyOp qs p op) rest

/-- Total byte advance an operation adds to the write-index field
(`len + 1` for a push, whether or not it fits; pops do not move it). -/
def opCost : PageOp → Nat
  | PageOp.push m => m.length + 1
  | PageOp.pop _ => 0

/-- Total write-index advance of a sequence of operations. -/
def opsCost (ops : List PageOp) : Nat := (ops.map opCost).sum

/-- The clamped `end` value `_get_write_idx_spin` returns when its spin exits
(the value of `end` after the final `end = (QUEUE_SIZE < end) ? QUEUE_SIZE :
end`); a proof-side abbreviation used to state pop theorems. -/
def spinEnd (qs : Nat) (p : RawQPage) (c : Nat) : Nat :=
  if p.last_safe_write_idx ≤ c then
    (if qs < p.write_idx_lock then qs else p.write_idx_lock)
  else
    (if qs < p.last_safe_write_idx then qs else p.last_safe_write_idx)

/-- Spec scenario 4 (`ARENA_SIZE = 16`): the page after pushing a 14-byte
message on a fresh page (write-index 15, one unwritten arena byte left). -/
def page16a : RawQPage :=
  (raw_qpage_push 16 freshPage (List.replicate 14 0x61) 14).1

/-- Spec scenario 4 continued: the page after the 4-byte push that finds the
page full (write-index field 20, `0xFD` stamped at offset 15). -/
def page16b : RawQPage :=
  (raw_qpage_push 16 page16a (List.replicate 4 0x62) 4).1

/-- `page16b` after a further failed push whose `size_t` length makes the
reserved byte count wrap the 56-bit write-index field: the state word becomes
`2 ^ 56 + 6` (one leaked writer unit, write-index field 6).  The full path
never dereferences the message pointer, so the pointed-to bytes are
irrelevant and modelled as `[]`. -/
def c5page3 : RawQPage :=
  (raw_qpage_push 16 page16b [] (2 ^ 56 - 15)).1

/-- A fresh full-size page after pushing "abc". -/
def pageAbc : RawQPage :=
  (raw_qpage_push QUEUE_SIZE freshPage [0x61, 0x62, 0x63] 3).1

/-- `pageAbc` after pushing "de" (spec scenario 3). -/
def pageAbcDe : RawQPage :=
  (raw_qpage_push QUEUE_SIZE pageAbc [0x64, 0x65] 2).1

/-- `pageAbcDe` after the reader popped at cursor 0. -/
def c6q1 : RawQPage := popStep QUEUE_SIZE pageAbcDe 0

/-- `c6q1` after the reader popped at cursor 4. -/
def c6q2 : RawQPage := popStep QUEUE_SIZE c6q1 4

/-- A page state whose committed bytes `41 41` carry no terminator but whose
byte at the safe end (offset 2) happens to be `0xFF`. -/
def c3cexPage : RawQPage := ⟨0, 2, 0, fun j => if j = 2 then 0xFF else 0x41⟩

/-- A page state whose committed bytes `41 41` carry no terminator and whose
byte at the safe end is not `0xFF` either. -/
def c3errPage : RawQPage := ⟨0, 2, 0, fun _ => 0x41⟩

/-- A fresh full-size page after a push of length `QUEUE_SIZE`, which does not
fit: the push returns PAGE_FULL, stamps `0xFD` at offset 0 and leaves the
write-index field at `QUEUE_SIZE + 1` (the full path never dereferences the
message pointer). -/
def w1 : RawQPage :=
  (raw_qpage_push QUEUE_SIZE freshPage [] QUEUE_SIZE).1

/-- `w1` after a pop at cursor `QUEUE_SIZE + 1`, which stores
`QUEUE_SIZE + 1` into `last_safe_write_idx`. -/
def w2 : RawQPage := popStep QUEUE_SIZE w1 (QUEUE_SIZE + 1)

/-- `w2` after a failed push whose `size_t` length `2 ^ 64 - 2` makes the
wrapping advance by `len + 1` move the state word DOWN by one, to
`QUEUE_SIZE`. -/
def w3 : RawQPage :=
  (raw_qpage_push QUEUE_SIZE w2 [] (2 ^ 64 - 2)).1

/-- `w3` after a pop at cursor `QUEUE_SIZE + 1`: the spin exits (writer count
is zero) and stores `QUEUE_SIZE` into `last_safe_write_idx`, lowering it. -/
def w4 : RawQPage := popStep QUEUE_SIZE w3 (QUEUE_SIZE + 1)

/-! ### Basic arithmetic and bit-field lemmas -/

theorem magic_num_lit : QUEUE_MAGIC_NUM = 72057594037927936 := by
  norm_num [QUEUE_MAGIC_NUM]

theorem size_t_mod_lit : SIZE_T_MOD = 18446744073709551616 := by
  norm_num [SIZE_T_MOD]

theorem queue_size_lit : QUEUE_SIZE = 65536000 := by
  norm_num [QUEUE_SIZE]

theorem magic_neg_eq : MAGIC_NUM_NEG = SIZE_T_MOD - QUEUE_MAGIC_NUM := by
  norm_num [MAGIC_NUM_NEG, SIZE_T_MOD, QUEUE_MAGIC_NUM]

/-- `st & QUEUE_MAGIC_MASK` extracts the write-index field: it is `st` reduced
modulo `2 ^ 56`. -/
theorem land_mask_eq_mod (st : Nat) : st &&& QUEUE_MAGIC_MASK = st % 2 ^ 56 := by
  have h : QUEUE_MAGIC_MASK = 2 ^ 56 - 1 := rfl
  rw [h, Nat.and_pow_two_sub_one_eq_mod]

/-- The bitwise-not spin test of `_get_write_idx_spin` (part_000) holds exactly
when the writer-count field of the loaded state word is zero. -/
theorem spinExit_iff (st : Nat) : spinExit st = true ↔ writerCount st = 0 := by
  have hmask : MAGIC_NUM_NEG = (2 ^ 8 - 1) <<< 56 := by
    rw [Nat.shiftLeft_eq]; norm_num [MAGIC_NUM_NEG]
  have hzero : ∀ x : Nat, x = 0 ↔ ∀ i, x.testBit i = false := fun x =>
    ⟨fun h i => by simp [h], fun h => Nat.eq_of_testBit_eq fun i => by simp [h i]⟩
  have hland : spinExit st = true ↔ st &&& MAGIC_NUM_NEG = 0 := by
    simp [spinExit]
  rw [hland, writerCount, hzero, hzero]
  constructor
  · intro h i
    rw [Nat.testBit_mod_two_pow, Nat.testBit_shiftRight]
    by_cases h8 : i < 8
    · have hb := h (56 + i)
      rw [Nat.testBit_land, hmask, Nat.testBit_shiftLeft,
        Nat.testBit_two_pow_sub_one] at hb
      have e1 : decide (56 + i ≥ 56) = true := by simp
      have e2 : decide (56 + i - 56 < 8) = true := by
        simp only [decide_eq_true_eq]
        omega
      rw [e1, e2] at hb
      simp only [Bool.and_true] at hb
      simp [hb]
    · simp [h8]
  · intro h i
    rw [Nat.testBit_land, hmask, Nat.testBit_shiftLeft, Nat.testBit_two_pow_sub_one]
    by_cases h5 : 56 ≤ i ∧ i - 56 < 8
    · have hb := h (i - 56)
      rw [Nat.testBit_mod_two_pow, Nat.testBit_shiftRight] at hb
      have e2 : decide (i - 56 < 8) = true := by simp [h5.2]
      rw [e2] at hb
      simp only [Bool.true_and] at hb
      have e3 : 56 + (i - 56) = i := by omega
      rw [e3] at hb
      simp [hb]
    · rcases Decidable.not_and_iff_or_not.mp h5 with h' | h'
      · simp [h']
      · simp [h']

/-- A state word below `2 ^ 56` (write-index only, no writers in flight)
passes the spin test. -/
theorem spinExit_of_lt {st : Nat} (h : st < 2 ^ 56) : spinExit st = true := by
  rw [spinExit_iff, writerCount, Nat.shiftRight_eq_div_pow, Nat.div_eq_of_lt h,
    Nat.zero_mod]

/-- Write-index of a state word with no writer bits is the word itself. -/
theorem land_mask_of_lt {st : Nat} (h : st < 2 ^ 56) :
    st &&& QUEUE_MAGIC_MASK = st := by
  rw [land_mask_eq_mod, Nat.mod_eq_of_lt h]

/-! ### Arena write and terminator scan lemmas -/

theorem writeByte_apply (f : Nat → Nat) (i v j : Nat) :
    writeByte f i v j = if j = i then v else f j := rfl

theorem writeBytes_apply (m : List Nat) :
    ∀ (f : Nat → Nat) (s j : Nat),
      writeBytes f s m j =
        if s ≤ j ∧ j < s + m.length then m.getD (j - s) 0 else f j := by
  induction m with
  | nil =>
    intro f s j
    have h : ¬ (s ≤ j ∧ j < s + ([] : List Nat).length) := by
      simp only [List.length_nil, Nat.add_zero]
      omega
    rw [if_neg h]
    rfl
  | cons b rest ih =>
    intro f s j
    simp only [writeBytes, List.length_cons]
    rw [ih]
    by_cases hj : j = s
    · subst hj
      have h1 : ¬ (j + 1 ≤ j ∧ j < j + 1 + rest.length) := by omega
      have h2 : j ≤ j ∧ j < j + (rest.length + 1) := by omega
      rw [if_neg h1, if_pos h2]
      simp [writeByte]
    · by_cases hin : s + 1 ≤ j ∧ j < s + 1 + rest.length
      · have h2 : s ≤ j ∧ j < s + (rest.length + 1) := by omega
        rw [if_pos hin, if_pos h2]
        have hd : j - s = (j - (s + 1)) + 1 := by omega
        rw [hd]
        rfl
      · have h2 : ¬ (s ≤ j ∧ j < s + (rest.length + 1)) := by omega
        rw [if_neg hin, if_neg h2]
        simp [writeByte, hj]

theorem scanTermAux_hit (buf : Nat → Nat) (k e : Nat)
    (hk : buf k = VALUE_TERM_BYTE) (hke : k < e) :
    ∀ fuel i, i ≤ k → k < i + fuel →
      (∀ j, i ≤ j → j < k → buf j ≠ VALUE_TERM_BYTE) →
      scanTermAux buf fuel i e = k := by
  intro fuel
  induction fuel with
  | zero => intro i h1 h2 _; omega
  | succ n ih =>
    intro i h1 h2 hmiss
    have hie : i < e := by omega
    rw [scanTermAux, if_pos hie]
    by_cases hi : buf i = VALUE_TERM_BYTE
    · have : i = k := by
        by_contra hne
        exact hmiss i (Nat.le_refl i) (by omega) hi
      rw [if_pos hi, this]
    · rw [if_neg hi]
      have hik : i ≠ k := fun h => hi (h ▸ hk)
      exact ih (i + 1) (by omega) (by omega) (fun j hj1 hj2 => hmiss j (by omega) hj2)

theorem scanTerm_hit (buf : Nat → Nat) (i k e : Nat)
    (hik : i ≤ k) (hke : k < e) (hk : buf k = VALUE_TERM_BYTE)
    (hmiss : ∀ j, i ≤ j → j < k → buf j ≠ VALUE_TERM_BYTE) :
    scanTerm buf i e = k :=
  scanTermAux_hit buf k e hk hke (e - i) i hik (by omega) hmiss

theorem scanTermAux_miss (buf : Nat → Nat) (e : Nat) :
    ∀ fuel i, e ≤ i + fuel → i ≤ e →
      (∀ j, i ≤ j → j < e → buf j ≠ VALUE_TERM_BYTE) →
      scanTermAux buf fuel i e = e := by
  intro fuel
  induction fuel with
  | zero => intro i h1 h2 _; simp [scanTermAux]; omega
  | succ n ih =>
    intro i h1 h2 hmiss
    by_cases hie : i < e
    · rw [scanTermAux, if_pos hie, if_neg (hmiss i (Nat.le_refl i) hie)]
      exact ih (i + 1) (by omega) (by omega) (fun j hj1 hj2 => hmiss j (by omega) hj2)
    · rw [scanTermAux, if_neg hie]
      omega

theorem scanTerm_miss (buf : Nat → Nat) (i e : Nat) (hie : i ≤ e)
    (hmiss : ∀ j, i ≤ j → j < e → buf j ≠ VALUE_TERM_BYTE) :
    scanTerm buf i e = e :=
  scanTermAux_miss buf e (e - i) i (by omega) hie hmiss

/-! ### Push and pop characterization lemmas -/

theorem push_ret (qs : Nat) (p : RawQPage) (m : List Nat) (len : Nat) :
    (raw_qpage_push qs p m len).2 =
      if qs - 1 ≤ ((p.write_idx_lock &&& QUEUE_MAGIC_MASK) + len) % SIZE_T_MOD
      then WRITE_PAGE_FULL else len + 1 := by
  simp only [raw_qpage_push]
  split <;> rfl

theorem push_write_idx (qs : Nat) (p : RawQPage) (m : List Nat) (len : Nat) :
    (raw_qpage_push qs p m len).1.write_idx_lock =
      (MAGIC_NUM_NEG +
        (p.write_idx_lock + (QUEUE_MAGIC_NUM + len + 1)) % SIZE_T_MOD) %
        SIZE_T_MOD := by
  simp only [raw_qpage_push]
  split <;> rfl

/-- The net effect of the reserve fetch-add and the release fetch-sub on the
state word is a wrapping advance by `len + 1`. -/
theorem push_write_idx_mod (qs : Nat) (p : RawQPage) (m : List Nat) (len : Nat) :
    (raw_qpage_push qs p m len).1.write_idx_lock =
      (p.write_idx_lock + len + 1) % SIZE_T_MOD := by
  rw [push_write_idx, magic_num_lit, size_t_mod_lit]
  simp only [MAGIC_NUM_NEG]
  omega

theorem push_last_safe (qs : Nat) (p : RawQPage) (m : List Nat) (len : Nat) :
    (raw_qpage_push qs p m len).1.last_safe_write_idx = p.last_safe_write_idx := by
  simp only [raw_qpage_push]
  split <;> rfl

theorem push_buf_full (qs : Nat) (p : RawQPage) (m : List Nat) (len : Nat)
    (h : qs - 1 ≤ ((p.write_idx_lock &&& QUEUE_MAGIC_MASK) + len) % SIZE_T_MOD) :
    (raw_qpage_push qs p m len).1.buf =
      if p.write_idx_lock &&& QUEUE_MAGIC_MASK ≤ qs - 1
      then writeByte p.buf (p.write_idx_lock &&& QUEUE_MAGIC_MASK) 0xFD
      else p.buf := by
  simp only [raw_qpage_push]
  rw [if_pos h]

theorem push_buf_ok (qs : Nat) (p : RawQPage) (m : List Nat) (len : Nat)
    (h : ¬ qs - 1 ≤ ((p.write_idx_lock &&& QUEUE_MAGIC_MASK) + len) % SIZE_T_MOD) :
    (raw_qpage_push qs p m len).1.buf =
      writeByte (writeBytes p.buf (p.write_idx_lock &&& QUEUE_MAGIC_MASK) (m.take len))
        ((p.write_idx_lock &&& QUEUE_MAGIC_MASK) + len) VALUE_TERM_BYTE := by
  simp only [raw_qpage_push]
  rw [if_neg h]

theorem spin_spins (qs : Nat) (p : RawQPage) (c : Nat)
    (h1 : p.last_safe_write_idx ≤ c) (h2 : spinExit p.write_idx_lock = true) :
    _get_write_idx_spin qs p c =
      some ({ p with last_safe_write_idx := p.write_idx_lock },
        if qs < p.write_idx_lock then qs else p.write_idx_lock) := by
  simp only [_get_write_idx_spin]
  rw [if_pos h1, if_pos h2]

theorem spin_hint (qs : Nat) (p : RawQPage) (c : Nat)
    (h : ¬ p.last_safe_write_idx ≤ c) :
    _get_write_idx_spin qs p c =
      some (p, if qs < p.last_safe_write_idx then qs else p.last_safe_write_idx) := by
  simp only [_get_write_idx_spin]
  rw [if_neg h]

theorem pop_of_spin (qs : Nat) (p : RawQPage) (c : Nat) (p1 : RawQPage) (e : Nat)
    (h : _get_write_idx_spin qs p c = some (p1, e)) :
    ∃ cs, raw_qpage_pop qs p c = some (p1, cs) := by
  rw [raw_qpage_pop, h]
  dsimp only
  by_cases h1 : e ≤ c
  · exact ⟨_, by rw [if_pos h1]⟩
  · rw [if_neg h1]
    by_cases h2 : p1.buf c = 0xFD
    · exact ⟨_, by rw [if_pos h2]⟩
    · rw [if_neg h2]
      by_cases h3 : p1.buf (scanTerm p1.buf c e) ≠ VALUE_TERM_BYTE
      · rw [if_pos h3]
        exact ⟨_, rfl⟩
      · rw [if_neg h3]
        exact ⟨_, rfl⟩

theorem popStep_of_spin (qs : Nat) (p : RawQPage) (c : Nat) (p1 : RawQPage) (e : Nat)
    (h : _get_write_idx_spin qs p c = some (p1, e)) :
    popStep qs p c = p1 := by
  obtain ⟨cs, hcs⟩ := pop_of_spin qs p c p1 e h
  rw [popStep, hcs]
  rfl

theorem popStep_stuck (qs : Nat) (p : RawQPage) (c : Nat)
    (h1 : p.last_safe_write_idx ≤ c) (h2 : spinExit p.write_idx_lock = false) :
    popStep qs p c = p := by
  rw [popStep, raw_qpage_pop, _get_write_idx_spin]
  simp only [if_pos h1, h2]
  rfl

theorem popStep_write_idx (qs : Nat) (p : RawQPage) (c : Nat) :
    (popStep qs p c).write_idx_lock = p.write_idx_lock := by
  by_cases h1 : p.last_safe_write_idx ≤ c
  · by_cases h2 : spinExit p.write_idx_lock = true
    · rw [popStep_of_spin qs p c _ _ (spin_spins qs p c h1 h2)]
    · rw [popStep_stuck qs p c h1 (by simpa using h2)]
  · rw [popStep_of_spin qs p c _ _ (spin_hint qs p c h1)]

theorem popStep_buf (qs : Nat) (p : RawQPage) (c : Nat) :
    (popStep qs p c).buf = p.buf := by
  by_cases h1 : p.last_safe_write_idx ≤ c
  · by_cases h2 : spinExit p.write_idx_lock = true
    · rw [popStep_of_spin qs p c _ _ (spin_spins qs p c h1 h2)]
    · rw [popStep_stuck qs p c h1 (by simpa using h2)]
  · rw [popStep_of_spin qs p c _ _ (spin_hint qs p c h1)]

theorem popStep_last_safe (qs : Nat) (p : RawQPage) (c : Nat) :
    (popStep qs p c).last_safe_write_idx =
      if p.last_safe_write_idx ≤ c ∧ spinExit p.write_idx_lock = true
      then p.write_idx_lock else p.last_safe_write_idx := by
  by_cases h1 : p.last_safe_write_idx ≤ c
  · by_cases h2 : spinExit p.write_idx_lock = true
    · rw [popStep_of_spin qs p c _ _ (spin_spins qs p c h1 h2), if_pos ⟨h1, h2⟩]
    · rw [popStep_stuck qs p c h1 (by simpa using h2),
        if_neg (fun h => h2 h.2)]
  · rw [popStep_of_spin qs p c _ _ (spin_hint qs p c h1),
      if_neg (fun h => h1 h.1)]

/-! ### Operation sequence lemmas -/

theorem opsCost_cons (op : PageOp) (ops : List PageOp) :
    opsCost (op :: ops) = opCost op + opsCost ops := by
  simp [opsCost]

theorem runOps_cons (qs : Nat) (p : RawQPage) (op : PageOp) (ops : List PageOp) :
    runOps qs p (op :: ops) = runOps qs (applyOp qs p op) ops := rfl

/-- Pops leave the state word alone and every push advances it by `len + 1`,
so as long as the total advance does not wrap, the final state word is the
initial one plus the total cost. -/
theorem runOps_write_idx (qs : Nat) (ops : List PageOp) :
    ∀ p : RawQPage, p.write_idx_lock + opsCost ops < SIZE_T_MOD →
      (runOps qs p ops).write_idx_lock = p.write_idx_lock + opsCost ops := by
  induction ops with
  | nil => intro p _; rfl
  | cons op rest ih =>
    intro p hb
    rw [opsCost_cons] at hb
    rw [runOps_cons]
    cases op with
    | push m =>
      have hstep : (applyOp qs p (PageOp.push m)).write_idx_lock =
          p.write_idx_lock + (m.length + 1) := by
        show (raw_qpage_push qs p m m.length).1.write_idx_lock = _
        rw [push_write_idx_mod]
        have : p.write_idx_lock + m.length + 1 < SIZE_T_MOD := by
          have h1 : opCost (PageOp.push m) = m.length + 1 := rfl
          omega
        rw [Nat.mod_eq_of_lt this]
        omega
      rw [ih _ (by rw [hstep]; have h1 : opCost (PageOp.push m) = m.length + 1 := rfl; omega),
        hstep, opsCost_cons]
      have h1 : opCost (PageOp.push m) = m.length + 1 := rfl
      omega
    | pop c =>
      have hstep : (applyOp qs p (PageOp.pop c)).write_idx_lock =
          p.write_idx_lock := popStep_write_idx qs p c
      rw [ih _ (by rw [hstep]; have h1 : opCost (PageOp.pop c) = 0 := rfl; omega),
        hstep, opsCost_cons]
      have h1 : opCost (PageOp.pop c) = 0 := rfl
      omega

/-! ### Field values along the wraparound scenario -/

theorem w1_fields : w1.write_idx_lock = QUEUE_SIZE + 1 ∧
    w1.last_safe_write_idx = 0 := by decide

theorem w2_fields : w2.write_idx_lock = QUEUE_SIZE + 1 ∧
    w2.last_safe_write_idx = QUEUE_SIZE + 1 := by decide

theorem w3_fields : w3.write_idx_lock = QUEUE_SIZE ∧
    w3.last_safe_write_idx = QUEUE_SIZE + 1 := by decide

theorem w4_last_safe : w4.last_safe_write_idx = QUEUE_SIZE := by decide

/-! ### Slice-level pop lemmas -/

theorem spinEnd_of_le (qs : Nat) (p : RawQPage) (c : Nat)
    (hls : p.last_safe_write_idx ≤ c) :
    spinEnd qs p c = if qs < p.write_idx_lock then qs else p.write_idx_lock := by
  rw [spinEnd, if_pos hls]

theorem spinEnd_of_gt (qs : Nat) (p : RawQPage) (c : Nat)
    (hls : ¬ p.last_safe_write_idx ≤ c) :
    spinEnd qs p c =
      if qs < p.last_safe_write_idx then qs else p.last_safe_write_idx := by
  rw [spinEnd, if_neg hls]

theorem pop_slice_empty (qs : Nat) (p : RawQPage) (c : Nat)
    (hx : p.last_safe_write_idx ≤ c → spinExit p.write_idx_lock = true)
    (he : spinEnd qs p c ≤ c) :
    popSlice qs p c = some ⟨0, none, READ_EMPTY⟩ := by
  by_cases hls : p.last_safe_write_idx ≤ c
  · rw [spinEnd_of_le qs p c hls] at he
    rw [popSlice, raw_qpage_pop, spin_spins qs p c hls (hx hls)]
    dsimp only
    rw [if_pos he]
    rfl
  · rw [spinEnd_of_gt qs p c hls] at he
    rw [popSlice, raw_qpage_pop, spin_hint qs p c hls]
    dsimp only
    rw [if_pos he]
    rfl

theorem pop_slice_finished (qs : Nat) (p : RawQPage) (c : Nat)
    (hx : p.last_safe_write_idx ≤ c → spinExit p.write_idx_lock = true)
    (he : ¬ spinEnd qs p c ≤ c) (hfd : p.buf c = 0xFD) :
    popSlice qs p c = some ⟨0, none, READ_FINISHED⟩ := by
  by_cases hls : p.last_safe_write_idx ≤ c
  · rw [spinEnd_of_le qs p c hls] at he
    rw [popSlice, raw_qpage_pop, spin_spins qs p c hls (hx hls)]
    dsimp only
    rw [if_neg he, if_pos hfd]
    rfl
  · rw [spinEnd_of_gt qs p c hls] at he
    rw [popSlice, raw_qpage_pop, spin_hint qs p c hls]
    dsimp only
    rw [if_neg he, if_pos hfd]
    rfl

theorem pop_slice_success (qs : Nat) (p : RawQPage) (c k : Nat)
    (hx : p.last_safe_write_idx ≤ c → spinExit p.write_idx_lock = true)
    (hfd : p.buf c ≠ 0xFD)
    (hk : p.buf k = VALUE_TERM_BYTE)
    (hck : c ≤ k) (hke : k < spinEnd qs p c)
    (hmiss : ∀ j, c ≤ j → j < k → p.buf j ≠ VALUE_TERM_BYTE) :
    popSlice qs p c = some ⟨k - c, some c, READ_SUCCESS⟩ := by
  have he : ¬ spinEnd qs p c ≤ c := by omega
  have hscan : scanTerm p.buf c (spinEnd qs p c) = k :=
    scanTerm_hit p.buf c k (spinEnd qs p c) hck hke hk hmiss
  have hnot : ¬ p.buf (scanTerm p.buf c (spinEnd qs p c)) ≠ VALUE_TERM_BYTE := by
    rw [hscan, hk]
    exact fun h => h rfl
  by_cases hls : p.last_safe_write_idx ≤ c
  · rw [spinEnd_of_le qs p c hls] at he hscan hnot
    rw [popSlice, raw_qpage_pop, spin_spins qs p c hls (hx hls)]
    dsimp only
    rw [if_neg he, if_neg hfd, if_neg hnot, hscan]
    rfl
  · rw [spinEnd_of_gt qs p c hls] at he hscan hnot
    rw [popSlice, raw_qpage_pop, spin_hint qs p c hls]
    dsimp only
    rw [if_neg he, if_neg hfd, if_neg hnot, hscan]
    rfl

/-! ### Claims -/

/-- C2 (code evaluated at the failing input): at the state word
`QUEUE_MAGIC_NUM` (writer-count 1, write-index 0), the loop-exit test of
`raw_qpage_pop_fast_read` (both source files) and of `_get_write_idx_spin` in
src/src/page.c — `(end & !QUEUE_MAGIC_MASK) == 0`, with C logical not — is
already true, so that spin exits with a writer in flight; only the
bitwise-not test of `_get_write_idx_spin` in src/unnamed/part_000 holds
exactly when the writer-count field of the loaded state word is zero. -/
theorem C2_spin_exit_predicate :
    (spinExitFastRead QUEUE_MAGIC_NUM = true ∧
      writerCount QUEUE_MAGIC_NUM = 1 ∧
      spinExit QUEUE_MAGIC_NUM = false) ∧
    (∀ st, spinExit st = true ↔ writerCount st = 0) :=
  ⟨by decide, spinExit_iff⟩

/-- C6 (confirmed): after pushing "abc" then "de" on a fresh page, the arena
bytes at offsets 0..6 are `61 62 63 FF 64 65 FF`; popping at cursor 0 returns
SUCCESS with len 3 (slice at offset 0, so the caller advances to 4), popping
at 4 returns SUCCESS with len 2 (advance to 7), and popping at 7 returns
EMPTY. -/
theorem C6_two_messages :
    (pageAbcDe.buf 0 = 0x61 ∧ pageAbcDe.buf 1 = 0x62 ∧ pageAbcDe.buf 2 = 0x63 ∧
      pageAbcDe.buf 3 = 0xFF ∧ pageAbcDe.buf 4 = 0x64 ∧ pageAbcDe.buf 5 = 0x65 ∧
      pageAbcDe.buf 6 = 0xFF) ∧
    popSlice QUEUE_SIZE pageAbcDe 0 = some ⟨3, some 0, READ_SUCCESS⟩ ∧
    popSlice QUEUE_SIZE c6q1 4 = some ⟨2, some 4, READ_SUCCESS⟩ ∧
    popSlice QUEUE_SIZE c6q2 7 = some ⟨0, none, READ_EMPTY⟩ := by decide

/-- C7 (confirmed): when the cursor equals the committed write-index (the
state word with no writer in flight, so the word is below `QUEUE_MAGIC_NUM`)
and the `last_safe_write_idx` hint does not exceed it (as on every reachable
page), pop returns EMPTY with len 0 and a null pointer. -/
theorem C7_pop_at_write_idx_empty (qs : Nat) (p : RawQPage) (c : Nat)
    (hw : p.write_idx_lock < QUEUE_MAGIC_NUM)
    (hc : c = p.write_idx_lock)
    (hs : p.last_safe_write_idx ≤ c) :
    popSlice qs p c = some ⟨0, none, READ_EMPTY⟩ := by
  apply pop_slice_empty qs p c (fun _ => spinExit_of_lt hw)
  rw [spinEnd_of_le qs p c hs, hc]
  split <;> omega

/-- C7 witness: a pop at cursor 0 on a freshly created all-zero page returns
EMPTY with len 0 and a null pointer. -/
theorem C7_pop_at_write_idx_empty_witness :
    popSlice QUEUE_SIZE freshPage 0 = some ⟨0, none, READ_EMPTY⟩ :=
  C7_pop_at_write_idx_empty QUEUE_SIZE freshPage 0 (by decide) rfl (by decide)

/-- C4 (confirmed): whenever a push's reservation does not fit (`start + len`
reaches `qs - 1`), it returns PAGE_FULL, and if the reserved start offset is
in bounds (`start < qs`) the byte at `start` is stamped `0xFD`; and in the
spec's concrete scenario (`ARENA_SIZE = 16`, a 14-byte push, then a 4-byte
push), the second push returns PAGE_FULL, stamps `0xFD` at offset 15, and a
pop at cursor 15 returns FINISHED. -/
theorem C4_page_full_stamp :
    (∀ qs p m len, 0 < qs →
      qs - 1 ≤ ((p.write_idx_lock &&& QUEUE_MAGIC_MASK) + len) % SIZE_T_MOD →
      (raw_qpage_push qs p m len).2 = WRITE_PAGE_FULL ∧
      (p.write_idx_lock &&& QUEUE_MAGIC_MASK < qs →
        (raw_qpage_push qs p m len).1.buf (p.write_idx_lock &&& QUEUE_MAGIC_MASK)
          = 0xFD)) ∧
    ((raw_qpage_push 16 page16a (List.replicate 4 0x62) 4).2 = WRITE_PAGE_FULL ∧
      page16b.buf 15 = 0xFD ∧
      popSlice 16 page16b 15 = some ⟨0, none, READ_FINISHED⟩) := by
  constructor
  · intro qs p m len hqs hfull
    constructor
    · rw [push_ret, if_pos hfull]
    · intro hin
      rw [push_buf_full qs p m len hfull, if_pos (by omega), writeByte_apply,
        if_pos rfl]
  · decide

/-- C4 witness: the general PAGE_FULL clause applied to the concrete second
push of the scenario. -/
theorem C4_page_full_stamp_witness :
    (raw_qpage_push 16 page16a (List.replicate 4 0x62) 4).2 = WRITE_PAGE_FULL ∧
    (page16a.write_idx_lock &&& QUEUE_MAGIC_MASK < 16 →
      (raw_qpage_push 16 page16a (List.replicate 4 0x62) 4).1.buf
        (page16a.write_idx_lock &&& QUEUE_MAGIC_MASK) = 0xFD) :=
  C4_page_full_stamp.1 16 page16a (List.replicate 4 0x62) 4 (by decide) (by decide)

/-- C1 (counterexample): the claim as stated misses the `0xFD` first-byte
restriction.  The one-byte message `FD` contains no `0xFF` and fits in the
arena; push on a fresh page duly returns `len + 1 = 2`, but the subsequent pop
at cursor 0 returns FINISHED (the pop path checks `buf[cursor]` against the
full sentinel `0xFD` before scanning), not SUCCESS. -/
theorem C1_cex_fd_first_byte :
    (raw_qpage_push QUEUE_SIZE freshPage [0xFD] 1).2 = 2 ∧
    popSlice QUEUE_SIZE (raw_qpage_push QUEUE_SIZE freshPage [0xFD] 1).1 0 =
      some ⟨0, none, READ_FINISHED⟩ := by decide

/-- C1 (amended): for every message `m` that contains no `0xFF` byte, whose
FIRST byte is not the full sentinel `0xFD`, and that fits in the arena,
pushing `m` on a fresh page returns `len(m) + 1`, a subsequent pop at cursor 0
returns SUCCESS with `len = len(m)` and a slice aliasing arena offset 0, and
the arena bytes `0..len(m)` are exactly `m`. -/
theorem C1_push_pop_round_trip (m : List Nat)
    (hterm : ∀ b ∈ m, b ≠ VALUE_TERM_BYTE)
    (hfd : m.getD 0 0 ≠ 0xFD)
    (hlen : m.length < QUEUE_SIZE - 1) :
    (raw_qpage_push QUEUE_SIZE freshPage m m.length).2 = m.length + 1 ∧
    popSlice QUEUE_SIZE (raw_qpage_push QUEUE_SIZE freshPage m m.length).1 0 =
      some ⟨m.length, some 0, READ_SUCCESS⟩ ∧
    (∀ j, j < m.length →
      (raw_qpage_push QUEUE_SIZE freshPage m m.length).1.buf j = m.getD j 0) := by
  rw [queue_size_lit] at hlen
  have hstart : freshPage.write_idx_lock &&& QUEUE_MAGIC_MASK = 0 := by decide
  have hcond : ¬ QUEUE_SIZE - 1 ≤
      ((freshPage.write_idx_lock &&& QUEUE_MAGIC_MASK) + m.length) % SIZE_T_MOD := by
    rw [hstart, size_t_mod_lit, queue_size_lit]
    omega
  have hret : (raw_qpage_push QUEUE_SIZE freshPage m m.length).2 = m.length + 1 := by
    rw [push_ret, if_neg hcond]
  have hw : (raw_qpage_push QUEUE_SIZE freshPage m m.length).1.write_idx_lock =
      m.length + 1 := by
    rw [push_write_idx_mod]
    have h0 : freshPage.write_idx_lock = 0 := rfl
    rw [h0, size_t_mod_lit]
    omega
  have hls : (raw_qpage_push QUEUE_SIZE freshPage m m.length).1.last_safe_write_idx
      = 0 := by
    rw [push_last_safe]
    rfl
  have hbuf : (raw_qpage_push QUEUE_SIZE freshPage m m.length).1.buf =
      writeByte (writeBytes freshPage.buf 0 m) m.length VALUE_TERM_BYTE := by
    rw [push_buf_ok QUEUE_SIZE freshPage m m.length hcond, hstart,
      List.take_length, Nat.zero_add]
  have hbj : ∀ j, j < m.length →
      (raw_qpage_push QUEUE_SIZE freshPage m m.length).1.buf j = m.getD j 0 := by
    intro j hj
    rw [hbuf, writeByte_apply, if_neg (by omega), writeBytes_apply]
    rw [if_pos ⟨Nat.zero_le j, by omega⟩, Nat.sub_zero]
  have hbL : (raw_qpage_push QUEUE_SIZE freshPage m m.length).1.buf m.length =
      VALUE_TERM_BYTE := by
    rw [hbuf, writeByte_apply, if_pos rfl]
  have hmiss : ∀ j, 0 ≤ j → j < m.length →
      (raw_qpage_push QUEUE_SIZE freshPage m m.length).1.buf j ≠
        VALUE_TERM_BYTE := by
    intro j _ hj
    rw [hbj j hj]
    intro heq
    have hjm : m.getD j 0 ∈ m := by
      rw [List.getD_eq_getElem m 0 hj]
      exact List.getElem_mem hj
    exact hterm _ hjm heq
  have hfd0 : (raw_qpage_push QUEUE_SIZE freshPage m m.length).1.buf 0 ≠ 0xFD := by
    rcases Nat.eq_zero_or_pos m.length with h0 | h0
    · rw [hbuf, writeByte_apply, if_pos (by omega)]
      decide
    · rw [hbj 0 h0]
      exact hfd
  have hmag : (2 : Nat) ^ 56 = 72057594037927936 := by norm_num
  have hend : spinEnd QUEUE_SIZE
      (raw_qpage_push QUEUE_SIZE freshPage m m.length).1 0 = m.length + 1 := by
    rw [spinEnd_of_le _ _ _ (by rw [hls]), hw, if_neg (by rw [queue_size_lit]; omega)]
  refine ⟨hret, ?_, hbj⟩
  have hpop := pop_slice_success QUEUE_SIZE
    (raw_qpage_push QUEUE_SIZE freshPage m m.length).1 0 m.length
    (fun _ => by rw [hw]; exact spinExit_of_lt (by rw [hmag]; omega))
    hfd0 hbL (Nat.zero_le _) (by rw [hend]; omega) (fun j h1 h2 => hmiss j h1 h2)
  rw [hpop, Nat.sub_zero]

/-- C1 witness: the round trip for the concrete two-byte message `61 62`. -/
theorem C1_push_pop_round_trip_witness :
    (raw_qpage_push QUEUE_SIZE freshPage [0x61, 0x62] 2).2 = 3 ∧
    popSlice QUEUE_SIZE (raw_qpage_push QUEUE_SIZE freshPage [0x61, 0x62] 2).1 0 =
      some ⟨2, some 0, READ_SUCCESS⟩ ∧
    (∀ j, j < 2 →
      (raw_qpage_push QUEUE_SIZE freshPage [0x61, 0x62] 2).1.buf j =
        [0x61, 0x62].getD j 0) :=
  C1_push_pop_round_trip [0x61, 0x62] (by decide) (by decide) (by decide)

/-- C3 (counterexample): the claim as stated is false, because the check after
the scan loop reads the byte AT the safe end (`i = end` when the loop found no
terminator strictly before `end`).  On a page whose committed bytes `41 41`
contain no terminator but whose byte at the safe end offset 2 happens to be
`0xFF`, pop at cursor 0 returns a SUCCESS-shaped slice of length 2, not
ERROR. -/
theorem C3_cex_terminator_at_end :
    popSlice QUEUE_SIZE c3cexPage 0 = some ⟨2, some 0, READ_SUCCESS⟩ := by decide

/-- C3 (amended): for every page state and cursor where the spin exits, the
scan range is nonempty, the byte at the cursor is not the full sentinel, and
no byte at offsets `cursor..end` INCLUSIVE of the safe end equals `0xFF`,
`raw_qpage_pop` (the src/unnamed/part_000 variant, which returns immediately
on a scan failure) returns ERROR with len 0 and a null pointer. -/
theorem C3_scan_fail_error (qs : Nat) (p : RawQPage) (c : Nat)
    (hx : p.last_safe_write_idx ≤ c → spinExit p.write_idx_lock = true)
    (hne : c < spinEnd qs p c)
    (hfd : p.buf c ≠ 0xFD)
    (hterm : ∀ j, c ≤ j → j ≤ spinEnd qs p c → p.buf j ≠ VALUE_TERM_BYTE) :
    popSlice qs p c = some ⟨0, none, READ_ERROR⟩ := by
  have hscan : scanTerm p.buf c (spinEnd qs p c) = spinEnd qs p c :=
    scanTerm_miss p.buf c (spinEnd qs p c) (by omega)
      (fun j h1 h2 => hterm j h1 (by omega))
  have hnot : p.buf (scanTerm p.buf c (spinEnd qs p c)) ≠ VALUE_TERM_BYTE := by
    rw [hscan]
    exact hterm _ (by omega) (Nat.le_refl _)
  by_cases hls : p.last_safe_write_idx ≤ c
  · rw [spinEnd_of_le qs p c hls] at hne hnot
    rw [popSlice, raw_qpage_pop, spin_spins qs p c hls (hx hls)]
    dsimp only
    rw [if_neg (by omega), if_neg hfd, if_pos hnot]
    rfl
  · rw [spinEnd_of_gt qs p c hls] at hne hnot
    rw [popSlice, raw_qpage_pop, spin_hint qs p c hls]
    dsimp only
    rw [if_neg (by omega), if_neg hfd, if_pos hnot]
    rfl

/-- C3 witness: on a page whose bytes are all `41` with safe end 2 and no
`0xFF` anywhere, pop at cursor 0 returns ERROR with len 0 and null pointer. -/
theorem C3_scan_fail_error_witness :
    popSlice QUEUE_SIZE c3errPage 0 = some ⟨0, none, READ_ERROR⟩ :=
  C3_scan_fail_error QUEUE_SIZE c3errPage 0 (fun _ => by decide) (by decide)
    (by decide) (fun j h1 h2 => by show (0x41 : Nat) ≠ VALUE_TERM_BYTE; decide)

/-- C9 (counterexample): the claim as stated is false.  `page16a`
(`ARENA_SIZE = 16`) has write-index 15, so arena offset 15 — one full byte —
is still free, and a zero-length push needs exactly one byte for its
terminator; yet the push returns PAGE_FULL, because the full check
`start + len >= QUEUE_SIZE - 1` reserves the last arena byte for the
sentinel. -/
theorem C9_cex_one_free_byte :
    page16a.write_idx_lock = 15 ∧
    (raw_qpage_push 16 page16a [] 0).2 = WRITE_PAGE_FULL := by decide

/-- C9 (amended): pushing a zero-length message on a page with at least TWO
free arena bytes (write-index below `ARENA_SIZE - 1`; the last byte is
reserved for the sentinel) returns 1, writes exactly one byte — the `0xFF`
terminator — at the reserved start offset, and a subsequent pop at that
offset returns SUCCESS with len 0. -/
theorem C9_zero_len_push (qs : Nat) (p : RawQPage)
    (hw : p.write_idx_lock < QUEUE_MAGIC_NUM)
    (hq : qs ≤ QUEUE_MAGIC_NUM)
    (hroom : p.write_idx_lock + 1 < qs) :
    (raw_qpage_push qs p [] 0).2 = 1 ∧
    (∀ j, (raw_qpage_push qs p [] 0).1.buf j =
      if j = p.write_idx_lock then VALUE_TERM_BYTE else p.buf j) ∧
    popSlice qs (raw_qpage_push qs p [] 0).1 p.write_idx_lock =
      some ⟨0, some p.write_idx_lock, READ_SUCCESS⟩ := by
  have hwlit : p.write_idx_lock < 72057594037927936 := by
    rw [← magic_num_lit]
    exact hw
  have hqlit : qs ≤ 72057594037927936 := by
    rw [← magic_num_lit]
    exact hq
  have hstart : p.write_idx_lock &&& QUEUE_MAGIC_MASK = p.write_idx_lock :=
    land_mask_of_lt hw
  have hcond : ¬ qs - 1 ≤
      ((p.write_idx_lock &&& QUEUE_MAGIC_MASK) + 0) % SIZE_T_MOD := by
    rw [hstart, size_t_mod_lit]
    omega
  have hret : (raw_qpage_push qs p [] 0).2 = 1 := by
    rw [push_ret, if_neg hcond]
  have hwv : (raw_qpage_push qs p [] 0).1.write_idx_lock =
      p.write_idx_lock + 1 := by
    rw [push_write_idx_mod, size_t_mod_lit]
    omega
  have hlsv : (raw_qpage_push qs p [] 0).1.last_safe_write_idx =
      p.last_safe_write_idx := push_last_safe qs p [] 0
  have hbuf : (raw_qpage_push qs p [] 0).1.buf =
      writeByte p.buf p.write_idx_lock VALUE_TERM_BYTE := by
    rw [push_buf_ok qs p [] 0 hcond, hstart]
    rfl
  have hbj : ∀ j, (raw_qpage_push qs p [] 0).1.buf j =
      if j = p.write_idx_lock then VALUE_TERM_BYTE else p.buf j := by
    intro j
    rw [hbuf, writeByte_apply]
  have hspinok : (raw_qpage_push qs p [] 0).1.last_safe_write_idx ≤
      p.write_idx_lock →
      spinExit (raw_qpage_push qs p [] 0).1.write_idx_lock = true := by
    intro _
    rw [hwv]
    exact spinExit_of_lt (by rw [show (2 : Nat) ^ 56 = 72057594037927936 by norm_num]; omega)
  have hfdv : (raw_qpage_push qs p [] 0).1.buf p.write_idx_lock ≠ 0xFD := by
    rw [hbuf, writeByte_apply, if_pos rfl]
    decide
  have hkv : (raw_qpage_push qs p [] 0).1.buf p.write_idx_lock =
      VALUE_TERM_BYTE := by
    rw [hbuf, writeByte_apply, if_pos rfl]
  have hend : p.write_idx_lock < spinEnd qs (raw_qpage_push qs p [] 0).1
      p.write_idx_lock := by
    by_cases hls : (raw_qpage_push qs p [] 0).1.last_safe_write_idx ≤
        p.write_idx_lock
    · rw [spinEnd_of_le _ _ _ hls, hwv]
      split <;> omega
    · rw [spinEnd_of_gt _ _ _ hls]
      rw [hlsv] at hls
      rw [hlsv]
      split <;> omega
  refine ⟨hret, hbj, ?_⟩
  have hpop := pop_slice_success qs (raw_qpage_push qs p [] 0).1
    p.write_idx_lock p.write_idx_lock hspinok hfdv hkv
    (Nat.le_refl _) hend (fun j h1 h2 => by omega)
  rw [hpop, Nat.sub_self]

/-- C9 witness: the zero-length push on a fresh page. -/
theorem C9_zero_len_push_witness :
    (raw_qpage_push QUEUE_SIZE freshPage [] 0).2 = 1 ∧
    (∀ j, (raw_qpage_push QUEUE_SIZE freshPage [] 0).1.buf j =
      if j = freshPage.write_idx_lock then VALUE_TERM_BYTE
      else freshPage.buf j) ∧
    popSlice QUEUE_SIZE (raw_qpage_push QUEUE_SIZE freshPage [] 0).1
      freshPage.write_idx_lock =
      some ⟨0, some freshPage.write_idx_lock, READ_SUCCESS⟩ :=
  C9_zero_len_push QUEUE_SIZE freshPage (by decide) (by decide) (by decide)

/-- C5 (counterexample): sealing is not terminal for every payload length.
With `ARENA_SIZE = 16`, after the 14-byte push and the 4-byte push (which
returns PAGE_FULL and seals the page, write-index field 20), a push of
`size_t` length `2 ^ 56 - 15` also returns PAGE_FULL but wraps the 56-bit
write-index field around to 6; the next push (zero-length) then returns 1 —
a successful write to a supposedly sealed page. -/
theorem C5_cex_seal_not_terminal :
    (raw_qpage_push 16 page16a (List.replicate 4 0x62) 4).2 = WRITE_PAGE_FULL ∧
    (raw_qpage_push 16 page16b [] (2 ^ 56 - 15)).2 = WRITE_PAGE_FULL ∧
    (raw_qpage_push 16 c5page3 [] 0).2 = 1 := by decide

/-- C5 (amended): once some push has returned PAGE_FULL, every subsequent
push also returns PAGE_FULL, PROVIDED the cumulative reserved bytes stay
below `2 ^ 56` so the write-index field never wraps (`hbound`).  Stated over
an arbitrary interleaving of further pushes and pops. -/
theorem C5_sealed_pushes_full (qs : Nat) (p : RawQPage) (m1 : List Nat)
    (ops : List PageOp) (m2 : List Nat)
    (hw : p.write_idx_lock < QUEUE_MAGIC_NUM)
    (hbound : p.write_idx_lock + (m1.length + 1) + opsCost ops +
      (m2.length + 1) < QUEUE_MAGIC_NUM)
    (hfull : (raw_qpage_push qs p m1 m1.length).2 = WRITE_PAGE_FULL) :
    (raw_qpage_push qs (runOps qs (raw_qpage_push qs p m1 m1.length).1 ops) m2
      m2.length).2 = WRITE_PAGE_FULL := by
  have h56 : (2 : Nat) ^ 56 = 72057594037927936 := by norm_num
  have hw' := hw
  have hbound' := hbound
  rw [magic_num_lit] at hw' hbound'
  have hstart1 : p.write_idx_lock &&& QUEUE_MAGIC_MASK = p.write_idx_lock :=
    land_mask_of_lt (by omega)
  have hcond1 : qs - 1 ≤
      ((p.write_idx_lock &&& QUEUE_MAGIC_MASK) + m1.length) % SIZE_T_MOD := by
    by_contra hc
    rw [push_ret, if_neg hc] at hfull
    simp [WRITE_PAGE_FULL] at hfull
  have hcond1' : qs - 1 ≤ p.write_idx_lock + m1.length := by
    rw [hstart1, size_t_mod_lit] at hcond1
    omega
  have hst1 : (raw_qpage_push qs p m1 m1.length).1.write_idx_lock =
      p.write_idx_lock + m1.length + 1 := by
    rw [push_write_idx_mod, size_t_mod_lit]
    omega
  have hrun : (runOps qs (raw_qpage_push qs p m1 m1.length).1 ops).write_idx_lock
      = p.write_idx_lock + m1.length + 1 + opsCost ops := by
    rw [runOps_write_idx qs ops _ (by rw [hst1, size_t_mod_lit]; omega), hst1]
  have hstart2 : (runOps qs (raw_qpage_push qs p m1 m1.length).1 ops).write_idx_lock
      &&& QUEUE_MAGIC_MASK =
      p.write_idx_lock + m1.length + 1 + opsCost ops := by
    rw [hrun]
    exact land_mask_of_lt (by omega)
  rw [push_ret, if_pos]
  rw [hstart2, size_t_mod_lit]
  omega

/-- C5 witness: the amended statement at the concrete sealed `ARENA_SIZE = 16`
page, with no intervening operations and a zero-length final push. -/
theorem C5_sealed_pushes_full_witness :
    (raw_qpage_push 16 (runOps 16 (raw_qpage_push 16 page16a
      (List.replicate 4 0x62) 4).1 []) [] 0).2 = WRITE_PAGE_FULL :=
  C5_sealed_pushes_full 16 page16a (List.replicate 4 0x62) [] []
    (by decide) (by decide) (by decide)

/-- C8 (counterexample): `last_safe_write_idx` can decrease.  From a fresh
page: a push of length `QUEUE_SIZE` fails and leaves the state word at
`QUEUE_SIZE + 1`; a pop at cursor `QUEUE_SIZE + 1` stores `QUEUE_SIZE + 1`
into `last_safe_write_idx`; a push of `size_t` length `2 ^ 64 - 2` fails and
WRAPS the state word down to `QUEUE_SIZE`; the next pop at the same cursor
then stores `QUEUE_SIZE` — the field decreased. -/
theorem C8_cex_safe_end_decrease :
    w2.last_safe_write_idx = QUEUE_SIZE + 1 ∧
    w4.last_safe_write_idx = QUEUE_SIZE ∧
    w4.last_safe_write_idx < w2.last_safe_write_idx := by decide

/-- C8 (amended): across any sequence of push and pop operations whose
cumulative reserved bytes keep the write-index field from wrapping modulo
`2 ^ 56`, the `last_safe_write_idx` field never decreases, and after every
operation it is at most the committed write-index (the state word, whose
writer-count stays zero between sequential operations). -/
theorem C8_safe_end_monotone (qs : Nat) (ops : List PageOp) :
    ∀ p : RawQPage, p.write_idx_lock < QUEUE_MAGIC_NUM →
      p.last_safe_write_idx ≤ p.write_idx_lock →
      p.write_idx_lock + opsCost ops < QUEUE_MAGIC_NUM →
      p.last_safe_write_idx ≤ (runOps qs p ops).last_safe_write_idx ∧
      (runOps qs p ops).last_safe_write_idx ≤ (runOps qs p ops).write_idx_lock ∧
      (runOps qs p ops).write_idx_lock < QUEUE_MAGIC_NUM := by
  induction ops with
  | nil =>
    intro p hw hs _
    exact ⟨Nat.le_refl _, hs, hw⟩
  | cons op rest ih =>
    intro p hw hs hb
    rw [opsCost_cons] at hb
    rw [runOps_cons]
    cases op with
    | push m =>
      have hcost : opCost (PageOp.push m) = m.length + 1 := rfl
      rw [hcost] at hb
      have hwv : (applyOp qs p (PageOp.push m)).write_idx_lock =
          p.write_idx_lock + m.length + 1 := by
        show (raw_qpage_push qs p m m.length).1.write_idx_lock = _
        rw [push_write_idx_mod, size_t_mod_lit]
        have hb' := hb
        rw [magic_num_lit] at hb'
        omega
      have hlsv : (applyOp qs p (PageOp.push m)).last_safe_write_idx =
          p.last_safe_write_idx := push_last_safe qs p m m.length
      have hrest := ih (applyOp qs p (PageOp.push m))
        (by rw [hwv]; omega)
        (by rw [hlsv, hwv]; omega)
        (by rw [hwv]; omega)
      refine ⟨?_, hrest.2.1, hrest.2.2⟩
      rw [← hlsv]
      exact hrest.1
    | pop c =>
      have hcost : opCost (PageOp.pop c) = 0 := rfl
      rw [hcost] at hb
      have hwv : (applyOp qs p (PageOp.pop c)).write_idx_lock =
          p.write_idx_lock := popStep_write_idx qs p c
      have hls1 : p.last_safe_write_idx ≤
          (applyOp qs p (PageOp.pop c)).last_safe_write_idx := by
        show p.last_safe_write_idx ≤ (popStep qs p c).last_safe_write_idx
        rw [popStep_last_safe]
        split
        · exact hs
        · exact Nat.le_refl _
      have hls2 : (applyOp qs p (PageOp.pop c)).last_safe_write_idx ≤
          p.write_idx_lock := by
        show (popStep qs p c).last_safe_write_idx ≤ p.write_idx_lock
        rw [popStep_last_safe]
        split
        · exact Nat.le_refl _
        · exact hs
      have hrest := ih (applyOp qs p (PageOp.pop c))
        (by rw [hwv]; omega)
        (by rw [hwv]; exact hls2)
        (by rw [hwv]; omega)
      exact ⟨Nat.le_trans hls1 hrest.1, hrest.2.1, hrest.2.2⟩

/-- C8 witness: the monotonicity statement for the concrete sequence
push "a" then pop at 0 on a fresh page. -/
theorem C8_safe_end_monotone_witness :
    freshPage.last_safe_write_idx ≤
      (runOps QUEUE_SIZE freshPage
        [PageOp.push [0x61], PageOp.pop 0]).last_safe_write_idx ∧
    (runOps QUEUE_SIZE freshPage
        [PageOp.push [0x61], PageOp.pop 0]).last_safe_write_idx ≤
      (runOps QUEUE_SIZE freshPage
        [PageOp.push [0x61], PageOp.pop 0]).write_idx_lock ∧
    (runOps QUEUE_SIZE freshPage
        [PageOp.push [0x61], PageOp.pop 0]).write_idx_lock < QUEUE_MAGIC_NUM :=
  C8_safe_end_monotone QUEUE_SIZE [PageOp.push [0x61], PageOp.pop 0] freshPage
    (by decide) (by decide) (by decide)

/-- C10 (counterexample): the abandoned reservation is not always a net
advance.  On `w2` (state word `QUEUE_SIZE + 1`, writer-count 0), a push of
`size_t` length `2 ^ 64 - 2` returns PAGE_FULL, and the state word afterwards
is `QUEUE_SIZE` — the write-index field DECREASED by one instead of advancing
by `len + 1`, so on repeated full pushes the field does not keep growing. -/
theorem C10_cex_wraparound :
    (raw_qpage_push QUEUE_SIZE w2 [] (2 ^ 64 - 2)).2 = WRITE_PAGE_FULL ∧
    w2.write_idx_lock = QUEUE_SIZE + 1 ∧
    w3.write_idx_lock = QUEUE_SIZE := by decide

/-- C10 (amended): when push returns PAGE_FULL and the reservation does not
wrap the 56-bit write-index field (`hnw`), the field remains advanced by
`len + 1`, the writer-count field returns to its prior value, no arena byte
other than the reserved start offset is modified, and the start offset is
stamped `0xFD` exactly when it satisfies the in-bounds guard
`start <= qs - 1`. -/
theorem C10_page_full_frame (qs : Nat) (p : RawQPage) (m : List Nat) (len : Nat)
    (hw64 : p.write_idx_lock < SIZE_T_MOD)
    (hnw : (p.write_idx_lock &&& QUEUE_MAGIC_MASK) + len + 1 < QUEUE_MAGIC_NUM)
    (hfull : (raw_qpage_push qs p m len).2 = WRITE_PAGE_FULL) :
    ((raw_qpage_push qs p m len).1.write_idx_lock &&& QUEUE_MAGIC_MASK) =
      (p.write_idx_lock &&& QUEUE_MAGIC_MASK) + len + 1 ∧
    writerCount (raw_qpage_push qs p m len).1.write_idx_lock =
      writerCount p.write_idx_lock ∧
    (∀ j, j ≠ p.write_idx_lock &&& QUEUE_MAGIC_MASK →
      (raw_qpage_push qs p m len).1.buf j = p.buf j) ∧
    (p.write_idx_lock &&& QUEUE_MAGIC_MASK ≤ qs - 1 →
      (raw_qpage_push qs p m len).1.buf
        (p.write_idx_lock &&& QUEUE_MAGIC_MASK) = 0xFD) ∧
    (¬ p.write_idx_lock &&& QUEUE_MAGIC_MASK ≤ qs - 1 →
      (raw_qpage_push qs p m len).1.buf = p.buf) := by
  have h56 : (2 : Nat) ^ 56 = 72057594037927936 := by norm_num
  have h8 : (2 : Nat) ^ 8 = 256 := by norm_num
  have hcond : qs - 1 ≤
      ((p.write_idx_lock &&& QUEUE_MAGIC_MASK) + len) % SIZE_T_MOD := by
    by_contra hc
    rw [push_ret, if_neg hc] at hfull
    simp [WRITE_PAGE_FULL] at hfull
  have hw64' := hw64
  rw [size_t_mod_lit] at hw64'
  have hnw' := hnw
  rw [land_mask_eq_mod, h56, magic_num_lit] at hnw'
  refine ⟨?_, ?_, ?_, ?_, ?_⟩
  · rw [push_write_idx_mod, land_mask_eq_mod, land_mask_eq_mod, h56,
      size_t_mod_lit]
    omega
  · rw [push_write_idx_mod, writerCount, writerCount,
      Nat.shiftRight_eq_div_pow, Nat.shiftRight_eq_div_pow, h56, h8,
      size_t_mod_lit]
    omega
  · intro j hj
    rw [push_buf_full qs p m len hcond]
    split
    · rw [writeByte_apply, if_neg hj]
    · rfl
  · intro hin
    rw [push_buf_full qs p m len hcond, if_pos hin, writeByte_apply, if_pos rfl]
  · intro hnin
    rw [push_buf_full qs p m len hcond, if_neg hnin]

/-- C10 witness: the frame statement at the concrete failing 4-byte push of
the `ARENA_SIZE = 16` scenario. -/
theorem C10_page_full_frame_witness :
    ((raw_qpage_push 16 page16a (List.replicate 4 0x62) 4).1.write_idx_lock &&&
      QUEUE_MAGIC_MASK) = (page16a.write_idx_lock &&& QUEUE_MAGIC_MASK) + 4 + 1 ∧
    writerCount (raw_qpage_push 16 page16a (List.replicate 4 0x62)
      4).1.write_idx_lock = writerCount page16a.write_idx_lock ∧
    (∀ j, j ≠ page16a.write_idx_lock &&& QUEUE_MAGIC_MASK →
      (raw_qpage_push 16 page16a (List.replicate 4 0x62) 4).1.buf j =
        page16a.buf j) ∧
    (page16a.write_idx_lock &&& QUEUE_MAGIC_MASK ≤ 16 - 1 →
      (raw_qpage_push 16 page16a (List.replicate 4 0x62) 4).1.buf
        (page16a.write_idx_lock &&& QUEUE_MAGIC_MASK) = 0xFD) ∧
    (¬ page16a.write_idx_lock &&& QUEUE_MAGIC_MASK ≤ 16 - 1 →
      (raw_qpage_push 16 page16a (List.replicate 4 0x62) 4).1.buf =
        page16a.buf) :=
  C10_page_full_frame 16 page16a (List.replicate 4 0x62) 4 (by decide)
    (by decide) (by decide)
